import Mathlib

/-!
Shallow embedding of the lifxlan hardware-version module (`version.go`)
and of the animation layer's neighbour-offset table (`part_000`),
together with proofs of the specified properties.

Machine integers are modelled as `Nat` with explicit `% 2^w` where Go's
fixed-width arithmetic matters.  Fallible operations return `Except`.
-/

namespace Lifxlan

/-- `EmptyHardwareVersion` is the constant to be compared against
`Device.HardwareVersion().String()` (from `version.go`). -/
def EmptyHardwareVersion : String := "(0, 0, 0)"

/-- `RawHardwareVersion` defines raw version info in message payloads:
three little-endian `uint32` fields (from `version.go`). -/
structure RawHardwareVersion where
  VendorID : Nat
  ProductID : Nat
  HardwareVersion : Nat
deriving DecidableEq, Repr

/-- `RawStateVersionPayload` wraps the version record for binary decoding
(from `version.go`). -/
structure RawStateVersionPayload where
  Version : RawHardwareVersion
deriving DecidableEq, Repr

/-- `ProductMapKey` generates the key for ProductMap based on vendor and
product ids: `uint64(vendor)<<32 + uint64(product)` in Go, where both
arguments are `uint32`.  The inner `% 2^32` models the `uint32` argument
types and the outer `% 2^64` the `uint64` addition (from `version.go`). -/
def ProductMapKey (vendor product : Nat) : Nat :=
  ((vendor % 2 ^ 32) * 2 ^ 32 + product % 2 ^ 32) % 2 ^ 64

/-- `ParsedHardwareVersion` is the parsed hardware version info
(from `version.go`). -/
structure ParsedHardwareVersion where
  ProductName : String
  Color : Bool
  Infrared : Bool
  MultiZone : Bool
  Chain : Bool
  MinKelvin : Nat
  MaxKelvin : Nat
  Raw : RawHardwareVersion
deriving DecidableEq, Repr

/-- `ProductMapKey` method on `RawHardwareVersion` (from `version.go`). -/
def RawHardwareVersion.ProductMapKey (raw : RawHardwareVersion) : Nat :=
  Lifxlan.ProductMapKey raw.VendorID raw.ProductID

/-- The type of the `ProductMap` registry: a lookup from 64-bit keys to
descriptor templates.  The table's contents live outside `src/`, so the
map is passed as an explicit parameter wherever `version.go` reads the
global `ProductMap`. -/
def ProductMapT : Type := Nat → Option ParsedHardwareVersion

/-- `Parse` parses the raw hardware version info by looking up ProductMap;
returns `none` when the key is absent, otherwise the registered template
with its `Raw` field overwritten by the input (from `version.go`). -/
def RawHardwareVersion.Parse (pm : ProductMapT) (raw : RawHardwareVersion) :
    Option ParsedHardwareVersion :=
  match pm raw.ProductMapKey with
  | none => none
  | some parsed => some { parsed with Raw := raw }

/-- The `String()` method of `RawHardwareVersion`: product name when the
version parses, always followed by `"(%v, %v, %v)"` of the raw triple
(from `version.go`). -/
def RawHardwareVersion.toString (pm : ProductMapT) (raw : RawHardwareVersion) :
    String :=
  (match raw.Parse pm with
   | some parsed => parsed.ProductName
   | none => "") ++
  "(" ++ Nat.repr raw.VendorID ++ ", " ++ Nat.repr raw.ProductID ++ ", " ++
    Nat.repr raw.HardwareVersion ++ ")"

end Lifxlan

namespace Animation

/-- A tile coordinate, as in `tile.Coordinate` (ints). -/
structure Coordinate where
  X : Int
  Y : Int
deriving DecidableEq, Repr

/-- The `neighbours` offset table of the animation layer, transcribed
entry by entry (from `part_000`). -/
def neighbours : List Coordinate :=
  [⟨-1, -1⟩, ⟨-1, 0⟩, ⟨1, 0⟩, ⟨0, -1⟩, ⟨0, 1⟩, ⟨1, -1⟩, ⟨1, 0⟩, ⟨1, -1⟩]

/-- The standard enumeration of the eight distinct neighbour offsets
in a square grid. -/
def standardNeighbours : List Coordinate :=
  [⟨-1, -1⟩, ⟨-1, 0⟩, ⟨-1, 1⟩, ⟨0, -1⟩, ⟨0, 1⟩, ⟨1, -1⟩, ⟨1, 0⟩, ⟨1, 1⟩]

end Animation

namespace Lifxlan

/-- Error values surfaced by the exchange engine.  `payloadTooShort` is the
structural decode failure of a too-short payload; all other collaborator
errors are opaque codes. -/
inductive Err where
  | payloadTooShort
  | code (n : Nat)
deriving DecidableEq, Repr

/-- Modelled from the spec: `Response` is the decoded result of one inbound
frame — source, sequence, message type and payload bytes (the decoder
`ParseResponse` lives outside `src/`). -/
structure Response where
  Source : Nat
  Sequence : Nat
  Message : Nat
  Payload : List Nat
deriving DecidableEq, Repr

/-- Modelled from the spec: the `StateVersion` message-type code (the
"state version" reply carrying the version record); its numeric value is
outside `src/`. -/
def StateVersion : Nat := 33

/-- The fields of the `device` struct that `version.go` uses: the
session's source identifier (`d.Source()`) and the stored raw hardware
version (`d.version`).  The struct's declaration is outside `src/`; the
field set here is the one `version.go` reads and writes. -/
structure Device where
  source : Nat
  version : RawHardwareVersion
deriving DecidableEq, Repr

/-- `HardwareVersion` returns `&d.version`: a pointer to the device's
stored version record, modelled as `Option` with `none` for a nil
pointer.  The code always returns the field's address, hence always
`some` (from `version.go`). -/
def Device.HardwareVersion (d : Device) : Option RawHardwareVersion :=
  some d.version

/-- Little-endian interpretation of four bytes as a `uint32`. -/
def decodeUint32LE (b : List Nat) : Nat :=
  b.getD 0 0 % 256 + b.getD 1 0 % 256 * 256 +
    b.getD 2 0 % 256 * 65536 + b.getD 3 0 % 256 * 16777216

/-- Modelled from the spec: `binary.Read(r, binary.LittleEndian, &raw)`
for `RawStateVersionPayload` — reads the fixed twelve-byte record as
three little-endian `uint32` fields and fails (`PayloadTooShort`) when
fewer bytes are present than the layout requires. -/
def binaryReadRawStateVersion (payload : List Nat) :
    Except Err RawStateVersionPayload :=
  if payload.length < 12 then .error .payloadTooShort
  else .ok ⟨⟨decodeUint32LE (payload.take 4),
             decodeUint32LE ((payload.drop 4).take 4),
             decodeUint32LE ((payload.drop 8).take 4)⟩⟩

/-- The observable outcome of one `conn.Read` in the read loop: a timeout
error (`CheckTimeoutError` returns true), any other read error, or the
bytes read.  The connection is an external collaborator, so each read's
outcome is an environment event. -/
inductive ReadResult where
  | timeoutErr
  | fatalErr (e : Err)
  | okBytes (b : List Nat)
deriving DecidableEq, Repr

/-- The environment events of one read-loop iteration: whether the outer
context is done at the loop-top `select`, the result of
`conn.SetReadDeadline`, and the result of `conn.Read`. -/
structure LoopIter where
  ctxDone : Bool
  setDeadlineErr : Option Err
  read : ReadResult
deriving DecidableEq, Repr

/-- The return value of `GetHardwareVersion`: success (nil error), the
context's error, some other error, or `diverge` when the modelled event
list ends before the Go loop would return (the loop is still polling). -/
inductive GHVReturn where
  | ok
  | ctxErr
  | failure (e : Err)
  | diverge
deriving DecidableEq, Repr

/-- The read loop of `GetHardwareVersion`, transcribed from `version.go`
lines 128–166: per iteration, check the context, set the read deadline,
read; timeouts continue the loop, other read errors return; a parsed
response is discarded (continue) unless sequence, source and message
type all match, in which case the payload is decoded and, on success,
the device's version replaced.  Returns the outcome, the final device
state, and the number of reads performed. -/
def runLoop (parse : List Nat → Except Err Response) (d : Device)
    (seq : Nat) : List LoopIter → GHVReturn × Device × Nat
  | [] => (.diverge, d, 0)
  | iter :: rest =>
    if iter.ctxDone then (.ctxErr, d, 0)
    else
      match iter.setDeadlineErr with
      | some e => (.failure e, d, 0)
      | none =>
        match iter.read with
        | .timeoutErr =>
          let r := runLoop parse d seq rest
          (r.1, r.2.1, r.2.2 + 1)
        | .fatalErr e => (.failure e, d, 1)
        | .okBytes b =>
          match parse b with
          | .error e => (.failure e, d, 1)
          | .ok resp =>
            if resp.Sequence ≠ seq ∨ resp.Source ≠ d.source then
              let r := runLoop parse d seq rest
              (r.1, r.2.1, r.2.2 + 1)
            else if resp.Message ≠ StateVersion then
              let r := runLoop parse d seq rest
              (r.1, r.2.1, r.2.2 + 1)
            else
              match binaryReadRawStateVersion resp.Payload with
              | .error e => (.failure e, d, 1)
              | .ok raw => (.ok, { d with version := raw.Version }, 1)

/-- The environment of one `GetHardwareVersion` call: the context's state
at the two entry checks, the outcome of `d.Dial()` and of `d.Send(...)`
(which assigns and returns the request's sequence number — both live
outside `src/`), and the events of the read loop. -/
structure GHVEnv where
  ctxDoneAtEntry : Bool
  dial : Except Err Unit
  ctxDoneAfterDial : Bool
  send : Except Err Nat
  iters : List LoopIter

/-- Observable side effects of one call: how many times `d.Send` was
invoked, how many reads were issued, whether a new connection was
dialed, and whether that dialed connection was closed. -/
structure Trace where
  sends : Nat
  reads : Nat
  dialed : Bool
  closedDialed : Bool
deriving DecidableEq, Repr

/-- The send-then-read-loop part of `GetHardwareVersion` (`version.go`
lines 115–166): `d.Send` is invoked exactly once; on send error the call
returns it, otherwise the read loop runs with the assigned sequence.
Returns outcome, device, sends performed, reads performed. -/
def exchange (parse : List Nat → Except Err Response) (d : Device)
    (env : GHVEnv) : GHVReturn × Device × Nat × Nat :=
  match env.send with
  | .error e => (.failure e, d, 1, 0)
  | .ok seq =>
    let r := runLoop parse d seq env.iters
    (r.1, r.2.1, 1, r.2.2)

/-- `GetHardwareVersion`, transcribed from `version.go` lines 93–166:
check the context; when the given connection is nil, dial a new one
(returning the dial error on failure), arrange its close on return, and
re-check the context; then send once and run the read loop.  The
`closedDialed` flag mirrors the `defer newConn.Close()`: it runs on
every return path after a successful dial, and has not yet run while
the loop is still polling (`diverge`). -/
def GetHardwareVersion (parse : List Nat → Except Err Response)
    (d : Device) (connProvided : Bool) (env : GHVEnv) :
    GHVReturn × Device × Trace :=
  if env.ctxDoneAtEntry then (.ctxErr, d, ⟨0, 0, false, false⟩)
  else if connProvided then
    let r := exchange parse d env
    (r.1, r.2.1, ⟨r.2.2.1, r.2.2.2, false, false⟩)
  else
    match env.dial with
    | .error e => (.failure e, d, ⟨0, 0, false, false⟩)
    | .ok _ =>
      if env.ctxDoneAfterDial then (.ctxErr, d, ⟨0, 0, true, true⟩)
      else
        let r := exchange parse d env
        let closed := match r.1 with
          | .diverge => false
          | _ => true
        (r.1, r.2.1, ⟨r.2.2.1, r.2.2.2, true, closed⟩)

end Lifxlan

namespace Lifxlan

/-- A concrete singleton registry used to instantiate theorems about
known devices. -/
def samplePM : ProductMapT := fun k =>
  if k = Lifxlan.ProductMapKey 1 22 then
    some ⟨"Example", true, false, false, false, 2500, 9000, ⟨0, 0, 0⟩⟩
  else none

/-- The empty registry: every key is absent. -/
def emptyPM : ProductMapT := fun _ => none

/-- C6: `ProductMapKey` is an injective, order-preserving packing of two
32-bit identifiers into a 64-bit key, vendor in the high 32 bits and
product in the low 32 bits. -/
theorem C6_productMapKey_injective (v1 p1 v2 p2 : Nat)
    (hv1 : v1 < 2 ^ 32) (hp1 : p1 < 2 ^ 32)
    (hv2 : v2 < 2 ^ 32) (hp2 : p2 < 2 ^ 32)
    (hne : (v1, p1) ≠ (v2, p2)) :
    Lifxlan.ProductMapKey v1 p1 ≠ Lifxlan.ProductMapKey v2 p2 ∧
    Lifxlan.ProductMapKey v1 p1 / 2 ^ 32 = v1 ∧
    Lifxlan.ProductMapKey v1 p1 % 2 ^ 32 = p1 := by
  simp only [ne_eq, Prod.mk.injEq, not_and_or] at hne
  unfold Lifxlan.ProductMapKey
  refine ⟨?_, by omega, by omega⟩
  rcases hne with h | h <;> omega

/-- C6 witness: the packing at (1, 2) and (1, 3). -/
theorem C6_productMapKey_injective_witness :
    Lifxlan.ProductMapKey 1 2 ≠ Lifxlan.ProductMapKey 1 3 ∧
    Lifxlan.ProductMapKey 1 2 / 2 ^ 32 = 1 ∧
    Lifxlan.ProductMapKey 1 2 % 2 ^ 32 = 2 :=
  C6_productMapKey_injective 1 2 1 3 (by decide) (by decide) (by decide)
    (by decide) (by decide)

/-- C7: when the (vendor, product) key is registered, `Parse` returns the
registered descriptor with its `Raw` field set to the input exactly, and
`String()` is the product name immediately followed by the raw triple. -/
theorem C7_known_lookup (pm : ProductMapT) (raw : RawHardwareVersion)
    (t : ParsedHardwareVersion) (h : pm raw.ProductMapKey = some t) :
    raw.Parse pm = some { t with Raw := raw } ∧
    RawHardwareVersion.toString pm raw =
      t.ProductName ++ "(" ++ Nat.repr raw.VendorID ++ ", " ++
        Nat.repr raw.ProductID ++ ", " ++ Nat.repr raw.HardwareVersion ++ ")" := by
  constructor
  · simp [RawHardwareVersion.Parse, h]
  · simp [RawHardwareVersion.toString, RawHardwareVersion.Parse, h]

/-- C7 witness: the sample registry resolves (1, 22, 5) to the sample
descriptor stamped with the input raw version. -/
theorem C7_known_lookup_witness :
    RawHardwareVersion.Parse samplePM ⟨1, 22, 5⟩ =
      some ⟨"Example", true, false, false, false, 2500, 9000, ⟨1, 22, 5⟩⟩ ∧
    RawHardwareVersion.toString samplePM ⟨1, 22, 5⟩ =
      "Example" ++ "(" ++ Nat.repr 1 ++ ", " ++ Nat.repr 22 ++ ", " ++
        Nat.repr 5 ++ ")" :=
  C7_known_lookup samplePM ⟨1, 22, 5⟩
    ⟨"Example", true, false, false, false, 2500, 9000, ⟨0, 0, 0⟩⟩ rfl

/-- When the key (0, 0) is absent from the registry, the zero version's
string form is exactly the empty-version constant. -/
lemma toString_zero_of_absent (pm : ProductMapT)
    (h0 : pm (Lifxlan.ProductMapKey 0 0) = none) :
    RawHardwareVersion.toString pm ⟨0, 0, 0⟩ = EmptyHardwareVersion := by
  have hk : (⟨0, 0, 0⟩ : RawHardwareVersion).ProductMapKey =
      Lifxlan.ProductMapKey 0 0 := rfl
  simp [RawHardwareVersion.toString, RawHardwareVersion.Parse, hk, h0]
  rfl

/-- C8: when the (vendor, product) key is absent, `Parse` returns `none`
(absence, not an error) and `String()` is only the raw triple; with key
(0, 0) absent, the zero version's string is `EmptyHardwareVersion`. -/
theorem C8_unknown_lookup (pm : ProductMapT) (raw : RawHardwareVersion)
    (h : pm raw.ProductMapKey = none) :
    raw.Parse pm = none ∧
    RawHardwareVersion.toString pm raw =
      "(" ++ Nat.repr raw.VendorID ++ ", " ++ Nat.repr raw.ProductID ++
        ", " ++ Nat.repr raw.HardwareVersion ++ ")" ∧
    (pm (Lifxlan.ProductMapKey 0 0) = none →
      RawHardwareVersion.toString pm ⟨0, 0, 0⟩ = EmptyHardwareVersion) := by
  refine ⟨by simp [RawHardwareVersion.Parse, h], ?_, ?_⟩
  · simp [RawHardwareVersion.toString, RawHardwareVersion.Parse, h]
  · exact toString_zero_of_absent pm

/-- C8 witness: in the empty registry, (0, 0, 0) parses to `none` and
prints as the empty-version constant. -/
theorem C8_unknown_lookup_witness :
    RawHardwareVersion.Parse emptyPM ⟨0, 0, 0⟩ = none ∧
    RawHardwareVersion.toString emptyPM ⟨0, 0, 0⟩ = EmptyHardwareVersion :=
  ⟨(C8_unknown_lookup emptyPM ⟨0, 0, 0⟩ rfl).1,
   (C8_unknown_lookup emptyPM ⟨0, 0, 0⟩ rfl).2.2 rfl⟩

/-- C4 counterexample: on a device with no successful version query (its
stored version is the zero record), `HardwareVersion` still returns a
non-nil pointer, refuting the claim that it returns nil until resolved. -/
theorem C4_hardwareVersion_counterexample :
    Device.HardwareVersion ⟨0, ⟨0, 0, 0⟩⟩ ≠ none := by decide

/-- C4 (amended): `HardwareVersion` always returns a non-nil pointer to
the stored raw version; until a version query succeeds the pointed-to
value is the zero record, whose string form is `EmptyHardwareVersion`
whenever its key is absent from the registry. -/
theorem C4_hardwareVersion_amended (d : Device) :
    Device.HardwareVersion d = some d.version ∧
    Device.HardwareVersion d ≠ none ∧
    (∀ pm : ProductMapT, pm (Lifxlan.ProductMapKey 0 0) = none →
      RawHardwareVersion.toString pm ⟨0, 0, 0⟩ = EmptyHardwareVersion) := by
  refine ⟨rfl, by simp [Device.HardwareVersion], ?_⟩
  intro pm h0
  exact toString_zero_of_absent pm h0

/-- C4 witness: the amended statement at a concrete fresh device and the
empty registry. -/
theorem C4_hardwareVersion_amended_witness :
    Device.HardwareVersion ⟨7, ⟨0, 0, 0⟩⟩ = some ⟨0, 0, 0⟩ ∧
    RawHardwareVersion.toString emptyPM ⟨0, 0, 0⟩ = EmptyHardwareVersion :=
  ⟨(C4_hardwareVersion_amended ⟨7, ⟨0, 0, 0⟩⟩).1,
   (C4_hardwareVersion_amended ⟨7, ⟨0, 0, 0⟩⟩).2.2 emptyPM rfl⟩

end Lifxlan

/-- C9: the animation layer's neighbour table has eight entries but does
not enumerate the eight distinct adjacent offsets: it contains a
duplicated offset and omits an adjacent direction. -/
theorem C9_neighbours_defective :
    Animation.neighbours.length = 8 ∧
    ¬ Animation.neighbours.Nodup ∧
    ∃ c ∈ Animation.standardNeighbours, c ∉ Animation.neighbours := by
  refine ⟨rfl, by decide, ⟨⟨-1, 1⟩, by decide, by decide⟩⟩

namespace Lifxlan

/-- A loop iteration in which the context is live, setting the deadline
succeeds, and the read times out. -/
def timeoutIter : LoopIter := ⟨false, none, .timeoutErr⟩

/-- A concrete frame decoder used to instantiate engine theorems: the
byte list `[1]` decodes to a matching StateVersion response for source
100, sequence 7, with an all-zero twelve-byte payload; everything else
fails to decode. -/
def witnessParse : List Nat → Except Err Response := fun b =>
  if b = [1] then .ok ⟨100, 7, StateVersion, List.replicate 12 0⟩
  else .error (.code 0)

/-- A transient timeout iteration only re-polls: the loop continues on
the remaining events with one more read performed and nothing else
changed. -/
lemma runLoop_timeout_cons (parse : List Nat → Except Err Response)
    (d : Device) (seq : Nat) (rest : List LoopIter) :
    runLoop parse d seq (timeoutIter :: rest) =
      ((runLoop parse d seq rest).1, (runLoop parse d seq rest).2.1,
        (runLoop parse d seq rest).2.2 + 1) := by
  simp [runLoop, timeoutIter]

/-- Absorbing `N` transient timeouts leaves outcome and device state
unchanged and adds `N` reads. -/
lemma runLoop_replicate_timeouts (parse : List Nat → Except Err Response)
    (d : Device) (seq N : Nat) (rest : List LoopIter) :
    runLoop parse d seq (List.replicate N timeoutIter ++ rest) =
      ((runLoop parse d seq rest).1, (runLoop parse d seq rest).2.1,
        (runLoop parse d seq rest).2.2 + N) := by
  induction N with
  | zero => rfl
  | succ n ih =>
    rw [List.replicate_succ, List.cons_append, runLoop_timeout_cons, ih]
    rfl

/-- Evaluation of one loop iteration whose read yields bytes that decode
to a response: the correlation ladder of `version.go` lines 151–165. -/
lemma runLoop_okBytes_cons (parse : List Nat → Except Err Response)
    (d : Device) (seq : Nat) (b : List Nat) (resp : Response)
    (rest : List LoopIter) (hp : parse b = .ok resp) :
    runLoop parse d seq (⟨false, none, .okBytes b⟩ :: rest) =
      if resp.Sequence ≠ seq ∨ resp.Source ≠ d.source then
        ((runLoop parse d seq rest).1, (runLoop parse d seq rest).2.1,
          (runLoop parse d seq rest).2.2 + 1)
      else if resp.Message ≠ StateVersion then
        ((runLoop parse d seq rest).1, (runLoop parse d seq rest).2.1,
          (runLoop parse d seq rest).2.2 + 1)
      else
        match binaryReadRawStateVersion resp.Payload with
        | .error e => (.failure e, d, 1)
        | .ok raw => (.ok, { d with version := raw.Version }, 1) := by
  simp [runLoop, hp]

/-- A matching, well-formed response ends the loop at once with the
device's version replaced. -/
lemma runLoop_accept_cons (parse : List Nat → Except Err Response)
    (d : Device) (seq : Nat) (b : List Nat) (resp : Response)
    (rest : List LoopIter) (hp : parse b = .ok resp)
    (hseq : resp.Sequence = seq) (hsrc : resp.Source = d.source)
    (hmsg : resp.Message = StateVersion) (raw : RawStateVersionPayload)
    (hdec : binaryReadRawStateVersion resp.Payload = .ok raw) :
    runLoop parse d seq (⟨false, none, .okBytes b⟩ :: rest) =
      (.ok, { d with version := raw.Version }, 1) := by
  rw [runLoop_okBytes_cons parse d seq b resp rest hp]
  rw [if_neg (by simp [hseq, hsrc]), if_neg (by simp [hmsg]), hdec]

/-- C1: with a live context, a connection yielding `N` transient timeouts
followed by a frame decoding to a matching StateVersion response makes
`GetHardwareVersion` return success with exactly one send and `N + 1`
reads: the loop re-polls, it never re-sends. -/
theorem C1_retry_not_resend (parse : List Nat → Except Err Response)
    (d : Device) (seq N : Nat) (b : List Nat) (resp : Response)
    (raw : RawStateVersionPayload)
    (hp : parse b = .ok resp) (hseq : resp.Sequence = seq)
    (hsrc : resp.Source = d.source) (hmsg : resp.Message = StateVersion)
    (hdec : binaryReadRawStateVersion resp.Payload = .ok raw) :
    GetHardwareVersion parse d true
      ⟨false, .ok (), false, .ok seq,
        List.replicate N timeoutIter ++ [⟨false, none, .okBytes b⟩]⟩ =
      (.ok, { d with version := raw.Version }, ⟨1, N + 1, false, false⟩) := by
  have hloop := runLoop_replicate_timeouts parse d seq N
    [⟨false, none, .okBytes b⟩]
  rw [runLoop_accept_cons parse d seq b resp [] hp hseq hsrc hmsg raw hdec]
    at hloop
  simp [GetHardwareVersion, exchange, hloop, Nat.add_comm]

/-- C1 witness: two timeouts then the matching frame; one send, three
reads, success. -/
theorem C1_retry_not_resend_witness :
    GetHardwareVersion witnessParse ⟨100, ⟨1, 2, 3⟩⟩ true
      ⟨false, .ok (), false, .ok 7,
        List.replicate 2 timeoutIter ++ [⟨false, none, .okBytes [1]⟩]⟩ =
      (.ok, ⟨100, ⟨0, 0, 0⟩⟩, ⟨1, 3, false, false⟩) :=
  C1_retry_not_resend witnessParse ⟨100, ⟨1, 2, 3⟩⟩ 7 2 [1]
    ⟨100, 7, StateVersion, List.replicate 12 0⟩ ⟨⟨0, 0, 0⟩⟩
    rfl rfl rfl rfl rfl

/-- C2: a context already done at entry makes the call return the
context's error with no send and no read; and in any loop iteration, a
done context returns the context's error with no further reads. -/
theorem C2_cancellation_priority (parse : List Nat → Except Err Response)
    (d : Device) (cp : Bool) (env : GHVEnv) (seq : Nat) (iter : LoopIter)
    (rest : List LoopIter) :
    (env.ctxDoneAtEntry = true →
      GetHardwareVersion parse d cp env = (.ctxErr, d, ⟨0, 0, false, false⟩)) ∧
    (iter.ctxDone = true →
      runLoop parse d seq (iter :: rest) = (.ctxErr, d, 0)) := by
  constructor
  · intro h
    simp [GetHardwareVersion, h]
  · intro h
    simp [runLoop, h]

/-- C2 witness: an expired context at entry yields the context error with
an all-zero trace. -/
theorem C2_cancellation_priority_witness :
    GetHardwareVersion witnessParse ⟨100, ⟨1, 2, 3⟩⟩ true
      ⟨true, .ok (), false, .ok 7, []⟩ =
      (.ctxErr, ⟨100, ⟨1, 2, 3⟩⟩, ⟨0, 0, false, false⟩) :=
  (C2_cancellation_priority witnessParse ⟨100, ⟨1, 2, 3⟩⟩ true
    ⟨true, .ok (), false, .ok 7, []⟩ 0 timeoutIter []).1 rfl

/-- C3: a decoded response is accepted exactly when its sequence, source
and message type all match; otherwise the iteration silently discards it
and the loop continues on the remaining events with one more read, no
state change and no surfaced error. -/
theorem C3_accept_iff_match (parse : List Nat → Except Err Response)
    (d : Device) (seq : Nat) (b : List Nat) (resp : Response)
    (rest : List LoopIter) (hp : parse b = .ok resp) :
    (¬ (resp.Sequence = seq ∧ resp.Source = d.source ∧
        resp.Message = StateVersion) →
      runLoop parse d seq (⟨false, none, .okBytes b⟩ :: rest) =
        ((runLoop parse d seq rest).1, (runLoop parse d seq rest).2.1,
          (runLoop parse d seq rest).2.2 + 1)) ∧
    ((resp.Sequence = seq ∧ resp.Source = d.source ∧
        resp.Message = StateVersion) →
      runLoop parse d seq (⟨false, none, .okBytes b⟩ :: rest) =
        (match binaryReadRawStateVersion resp.Payload with
         | .error e => (.failure e, d, 1)
         | .ok raw => (.ok, { d with version := raw.Version }, 1))) := by
  constructor
  · intro h
    rcases Decidable.em (resp.Sequence ≠ seq ∨ resp.Source ≠ d.source) with
      h1 | h1
    · rw [runLoop_okBytes_cons parse d seq b resp rest hp, if_pos h1]
    · push_neg at h1
      have h3 : resp.Message ≠ StateVersion := by
        intro hm
        exact h ⟨h1.1, h1.2, hm⟩
      rw [runLoop_okBytes_cons parse d seq b resp rest hp,
        if_neg (by simp [h1.1, h1.2]), if_pos h3]
  · rintro ⟨h1, h2, h3⟩
    rw [runLoop_okBytes_cons parse d seq b resp rest hp,
      if_neg (by simp [h1, h2]), if_neg (by simp [h3])]

/-- C3 witness: a response with the wrong sequence is discarded and the
loop keeps polling (here: runs out of modelled events after one read). -/
theorem C3_accept_iff_match_witness :
    runLoop witnessParse ⟨100, ⟨1, 2, 3⟩⟩ 8 [⟨false, none, .okBytes [1]⟩] =
      (.diverge, ⟨100, ⟨1, 2, 3⟩⟩, 1) :=
  (C3_accept_iff_match witnessParse ⟨100, ⟨1, 2, 3⟩⟩ 8 [1]
    ⟨100, 7, StateVersion, List.replicate 12 0⟩ [] rfl).1 (by decide)

end Lifxlan

namespace Lifxlan

/-- Loop invariant: on any non-success outcome the device is unchanged;
on success the device's version was replaced wholesale by the record
decoded from a matching response observed in the event list. -/
lemma runLoop_version_invariant (parse : List Nat → Except Err Response)
    (d : Device) (seq : Nat) (iters : List LoopIter) :
    ((runLoop parse d seq iters).1 ≠ .ok →
      (runLoop parse d seq iters).2.1 = d) ∧
    ((runLoop parse d seq iters).1 = .ok →
      ∃ iter ∈ iters, ∃ b resp raw,
        iter.read = .okBytes b ∧ parse b = .ok resp ∧
        resp.Sequence = seq ∧ resp.Source = d.source ∧
        resp.Message = StateVersion ∧
        binaryReadRawStateVersion resp.Payload = .ok raw ∧
        (runLoop parse d seq iters).2.1 =
          { d with version := raw.Version }) := by
  induction iters with
  | nil => simp [runLoop]
  | cons iter rest ih =>
    cases hctx : iter.ctxDone with
    | true => simp [runLoop, hctx]
    | false =>
      cases hdl : iter.setDeadlineErr with
      | some e => simp [runLoop, hctx, hdl]
      | none =>
        cases hrd : iter.read with
        | timeoutErr =>
          simp only [runLoop, hctx, hdl, hrd]
          simp only [Bool.false_eq_true, if_false]
          refine ⟨fun hne => ih.1 hne, fun hok => ?_⟩
          obtain ⟨it, hmem, b, resp, raw, hrest⟩ := ih.2 hok
          exact ⟨it, List.mem_cons_of_mem _ hmem, b, resp, raw, hrest⟩
        | fatalErr e => simp [runLoop, hctx, hdl, hrd]
        | okBytes b =>
          cases hpb : parse b with
          | error e => simp [runLoop, hctx, hdl, hrd, hpb]
          | ok resp =>
            rcases Decidable.em (resp.Sequence ≠ seq ∨
                resp.Source ≠ d.source) with h1 | h1
            · have heq : runLoop parse d seq (iter :: rest) =
                  ((runLoop parse d seq rest).1,
                    (runLoop parse d seq rest).2.1,
                    (runLoop parse d seq rest).2.2 + 1) := by
                have hiter : iter = ⟨false, none, .okBytes b⟩ := by
                  cases iter
                  simp_all
                rw [hiter, runLoop_okBytes_cons parse d seq b resp rest hpb,
                  if_pos h1]
              rw [heq]
              refine ⟨fun hne => ih.1 hne, fun hok => ?_⟩
              obtain ⟨it, hmem, bb, rr, ww, hrest⟩ := ih.2 hok
              exact ⟨it, List.mem_cons_of_mem _ hmem, bb, rr, ww, hrest⟩
            · push_neg at h1
              have hiter : iter = ⟨false, none, .okBytes b⟩ := by
                cases iter
                simp_all
              rcases Decidable.em (resp.Message ≠ StateVersion) with h3 | h3
              · have heq : runLoop parse d seq (iter :: rest) =
                    ((runLoop parse d seq rest).1,
                      (runLoop parse d seq rest).2.1,
                      (runLoop parse d seq rest).2.2 + 1) := by
                  rw [hiter, runLoop_okBytes_cons parse d seq b resp rest hpb,
                    if_neg (by simp [h1.1, h1.2]), if_pos h3]
                rw [heq]
                refine ⟨fun hne => ih.1 hne, fun hok => ?_⟩
                obtain ⟨it, hmem, bb, rr, ww, hrest⟩ := ih.2 hok
                exact ⟨it, List.mem_cons_of_mem _ hmem, bb, rr, ww, hrest⟩
              · push_neg at h3
                cases hbr : binaryReadRawStateVersion resp.Payload with
                | error e =>
                  have heq : runLoop parse d seq (iter :: rest) =
                      (.failure e, d, 1) := by
                    rw [hiter, runLoop_okBytes_cons parse d seq b resp rest hpb,
                      if_neg (by simp [h1.1, h1.2]), if_neg (by simp [h3]),
                      hbr]
                  rw [heq]
                  simp
                | ok raw =>
                  have heq : runLoop parse d seq (iter :: rest) =
                      (.ok, { d with version := raw.Version }, 1) := by
                    rw [hiter, runLoop_okBytes_cons parse d seq b resp rest hpb,
                      if_neg (by simp [h1.1, h1.2]), if_neg (by simp [h3]),
                      hbr]
                  rw [heq]
                  refine ⟨by simp, fun _ => ?_⟩
                  exact ⟨iter, List.mem_cons_self _ _, b, resp, raw,
                    hrd, hpb, h1.1, h1.2, h3, hbr, rfl⟩

end Lifxlan

namespace Lifxlan

/-- C5: whenever `GetHardwareVersion` does not return success — context
error, dial/send/deadline error, frame-decode error, short payload, or
still polling — the stored version is unchanged; on success it is
replaced wholesale by the record decoded from the matching response's
payload. -/
theorem C5_version_replaced_wholesale (parse : List Nat → Except Err Response)
    (d : Device) (cp : Bool) (env : GHVEnv) :
    ((GetHardwareVersion parse d cp env).1 ≠ .ok →
      (GetHardwareVersion parse d cp env).2.1 = d) ∧
    ((GetHardwareVersion parse d cp env).1 = .ok →
      ∃ seq, env.send = .ok seq ∧
        ∃ iter ∈ env.iters, ∃ b resp raw,
          iter.read = .okBytes b ∧ parse b = .ok resp ∧
          resp.Sequence = seq ∧ resp.Source = d.source ∧
          resp.Message = StateVersion ∧
          binaryReadRawStateVersion resp.Payload = .ok raw ∧
          (GetHardwareVersion parse d cp env).2.1 =
            { d with version := raw.Version }) := by
  cases henv : env.ctxDoneAtEntry with
  | true => simp [GetHardwareVersion, henv]
  | false =>
    cases cp with
    | true =>
      cases hsend : env.send with
      | error e => simp [GetHardwareVersion, exchange, henv, hsend]
      | ok seq =>
        have h := runLoop_version_invariant parse d seq env.iters
        simp only [GetHardwareVersion, exchange, henv, hsend,
          Bool.false_eq_true, if_false, if_true]
        refine ⟨h.1, fun hok => ⟨seq, rfl, h.2 hok⟩⟩
    | false =>
      cases hdial : env.dial with
      | error e => simp [GetHardwareVersion, henv, hdial]
      | ok u =>
        cases u
        cases hcd : env.ctxDoneAfterDial with
        | true => simp [GetHardwareVersion, henv, hdial, hcd]
        | false =>
          cases hsend : env.send with
          | error e => simp [GetHardwareVersion, exchange, henv, hdial,
              hcd, hsend]
          | ok seq =>
            have h := runLoop_version_invariant parse d seq env.iters
            simp only [GetHardwareVersion, exchange, henv, hdial, hcd,
              hsend, Bool.false_eq_true, if_false, if_true]
            refine ⟨h.1, fun hok => ⟨seq, rfl, h.2 hok⟩⟩

/-- C5 witness: a send failure leaves the stored version untouched. -/
theorem C5_version_replaced_wholesale_witness :
    (GetHardwareVersion witnessParse ⟨100, ⟨1, 2, 3⟩⟩ true
      ⟨false, .ok (), false, .error (.code 1), []⟩).2.1 = ⟨100, ⟨1, 2, 3⟩⟩ :=
  (C5_version_replaced_wholesale witnessParse ⟨100, ⟨1, 2, 3⟩⟩ true
    ⟨false, .ok (), false, .error (.code 1), []⟩).1 (by decide)

/-- C10: with a nil connection argument and a live context, the call
dials; a dial failure is returned as-is with no send, no read and no
connection to close; after a successful dial the trace records the
dialed connection, and it is closed on every return path. -/
theorem C10_nil_conn_dials (parse : List Nat → Except Err Response)
    (d : Device) (env : GHVEnv) (hctx : env.ctxDoneAtEntry = false) :
    (∀ e, env.dial = .error e →
      GetHardwareVersion parse d false env =
        (.failure e, d, ⟨0, 0, false, false⟩)) ∧
    (env.dial = .ok () →
      (GetHardwareVersion parse d false env).2.2.dialed = true ∧
      ((GetHardwareVersion parse d false env).1 ≠ .diverge →
        (GetHardwareVersion parse d false env).2.2.closedDialed = true)) := by
  constructor
  · intro e he
    simp [GetHardwareVersion, hctx, he]
  · intro hd
    cases hcd : env.ctxDoneAfterDial with
    | true =>
      simp [GetHardwareVersion, hctx, hd, hcd]
    | false =>
      simp only [GetHardwareVersion, hctx, hd, hcd, Bool.false_eq_true,
        if_false, if_true]
      refine ⟨by trivial, fun hnd => ?_⟩
      revert hnd
      cases hex : (exchange parse d env).1 <;> simp [hex]

/-- C10 witness: a failing dial surfaces the dial error with an all-zero
trace (no send performed). -/
theorem C10_nil_conn_dials_witness :
    GetHardwareVersion witnessParse ⟨100, ⟨1, 2, 3⟩⟩ false
      ⟨false, .error (.code 2), false, .ok 7, []⟩ =
      (.failure (.code 2), ⟨100, ⟨1, 2, 3⟩⟩, ⟨0, 0, false, false⟩) :=
  (C10_nil_conn_dials witnessParse ⟨100, ⟨1, 2, 3⟩⟩
    ⟨false, .error (.code 2), false, .ok 7, []⟩ rfl).1 (.code 2) rfl

end Lifxlan
